import Mathlib

/-!
# Verification of `scripts/commit.py`

A shallow embedding of the repository's commit helper script. The script is
straight-line Python: it changes the working directory to the project root,
runs five fixed `cargo` commands with a fail-fast `run` helper, and, when a
commit message was supplied, stages, shows status, appends a random suit
symbol to the message, asks for confirmation, and commits and pushes.

The embedding makes the script's interaction with its environment explicit:

* `Env` packages everything the script consumes from the outside world: the
  exit code each external command would return, the optional command-line
  message, the outcome of `random.choice`, the line available on standard
  input at the confirmation prompt (`none` models end-of-file, on which
  Python's `input` raises `EOFError`), and the path of the script file itself.
* `Event` records the externally visible actions in order: the single
  `os.chdir`, every printed line, every spawned external command, and the
  interactive prompt.
* Python's `exit(code)` inside `run` is modelled by propagating a
  `some code` result that aborts the remaining straight-line code, exactly as
  the uncaught `SystemExit` does.
-/

/-- A filesystem path, as its list of components. -/
abbrev FsPath := List String

/-- Everything the script reads from its environment. `exitCode` gives the
return code the external command with the given argument vector would produce;
`message` is the optional positional argument; `choice` is the outcome of
`random.choice` on the four-element symbol list; `stdin` is the line returned
by `input` at the prompt (`none` = end-of-file, which raises `EOFError`);
`scriptFile` is the resolved path of `commit.py`. -/
structure Env where
  exitCode : List String → Int
  message : Option String
  choice : Fin 4
  stdin : Option String
  scriptFile : FsPath

/-- Externally visible actions of the script, in order of occurrence. -/
inductive Event where
  | chdir (dir : FsPath)
  | printLine (s : String)
  | runCmd (args : List String)
  | prompt (s : String)
  deriving DecidableEq, Repr

/-- How one run of the script ends: a `SystemExit` with the given code
(`exit(code)` on command failure, or falling off the end, which is exit 0),
or an uncaught `EOFError` from `input` at end-of-file. -/
inductive Outcome where
  | exited (code : Int)
  | eofError
  deriving DecidableEq, Repr

/-- The list `["♦", "♣", "♥", "♠"]` passed to `random.choice`. -/
def symbols : List String := ["♦", "♣", "♥", "♠"]

/-- `args.message + " " + random.choice(symbols)`: the final commit message. -/
def finalMessage (msg : String) (c : Fin 4) : String :=
  msg ++ " " ++ symbols.getD c.val ""

/-- The `run` helper of the script: print the command line, spawn the
command, and on a non-zero return code print a diagnostic and exit with that
code (`some code` aborts the rest of the script). -/
def runOne (env : Env) (args : List String) : List Event × Option Int :=
  let code := env.exitCode args
  let pre := [Event.printLine ("> " ++ String.intercalate " " args),
              Event.runCmd args]
  if code ≠ 0 then
    (pre ++ [Event.printLine ("Error! Command " ++ args.headI ++
        " returned non-zero exit code " ++ toString code)], some code)
  else
    (pre, none)

/-- A block of consecutive `run` calls, aborting at the first failure. -/
def runAll (env : Env) : List (List String) → List Event × Option Int
  | [] => ([], none)
  | c :: cs =>
    match runOne env c with
    | (ev, some code) => (ev, some code)
    | (ev, none) =>
      match runAll env cs with
      | (ev2, r) => (ev ++ ev2, r)

/-- The five fixed pre-commit commands, in source order. -/
def preCommit : List (List String) :=
  [["cargo", "check"], ["cargo", "clippy"], ["cargo", "fmt"],
   ["cargo", "test"], ["cargo", "doc"]]

/-- The two staging commands run by the commit helper before the prompt. -/
def gitPre : List (List String) :=
  [["git", "add", "-A"], ["git", "status"]]

/-- The commit and push commands run after a confirmed prompt. -/
def gitFinish (m : String) : List (List String) :=
  [["git", "commit", "-m", m], ["git", "push"]]

/-- Python's `str.lower`, character by character. `Char.toLower` covers the
ASCII range, which is all the confirmation check compares against. -/
def pyLower (s : String) : String :=
  ⟨s.data.map Char.toLower⟩

/-- Python's `str.strip` with no argument: remove leading and trailing
whitespace. -/
def pyStrip (s : String) : String :=
  ⟨((s.data.dropWhile Char.isWhitespace).reverse.dropWhile
      Char.isWhitespace).reverse⟩

/-- Python truthiness of `args.message`: `None` and `""` are falsy. -/
def truthy : Option String → Bool
  | none => false
  | some s => s != ""

/-- The target of the chdir performed at startup, per the source line
reading parent-of-parent of the script file resolved by pathlib: drop the
file name,
then drop the `scripts` directory, leaving the project root. -/
def projectRoot (env : Env) : FsPath :=
  env.scriptFile.dropLast.dropLast

/-- The whole script, from `os.chdir` to termination, as the list of events
it performs and its final outcome. -/
def script (env : Env) : List Event × Outcome :=
  let cd := [Event.chdir (projectRoot env)]
  match runAll env preCommit with
  | (ev, some code) => (cd ++ ev, Outcome.exited code)
  | (ev, none) =>
    if truthy env.message then
      let msg := env.message.getD ""
      match runAll env gitPre with
      | (ev2, some code) => (cd ++ ev ++ ev2, Outcome.exited code)
      | (ev2, none) =>
        let m := finalMessage msg env.choice
        let ev3 := [Event.printLine ("Message: " ++ m),
                    Event.prompt "Commit & Push (y/n)? "]
        match env.stdin with
        | none => (cd ++ ev ++ ev2 ++ ev3, Outcome.eofError)
        | some inp =>
          if pyLower (pyStrip inp) = "y" then
            match runAll env (gitFinish m) with
            | (ev4, some code) =>
              (cd ++ ev ++ ev2 ++ ev3 ++ ev4, Outcome.exited code)
            | (ev4, none) =>
              (cd ++ ev ++ ev2 ++ ev3 ++ ev4, Outcome.exited 0)
          else
            (cd ++ ev ++ ev2 ++ ev3, Outcome.exited 0)
    else
      (cd ++ ev ++ [Event.printLine "No commit message provided."],
       Outcome.exited 0)

/-- The argument vectors of the external commands spawned, in order. -/
def invoked (evs : List Event) : List (List String) :=
  evs.filterMap fun e =>
    match e with
    | Event.runCmd a => some a
    | _ => none

/-- The events a block of successful `run` calls produces. -/
def okEvents : List (List String) → List Event
  | [] => []
  | c :: cs =>
    Event.printLine ("> " ++ String.intercalate " " c) ::
      Event.runCmd c :: okEvents cs

/-! ## Basic lemmas about the event trace -/

theorem invoked_append (a b : List Event) :
    invoked (a ++ b) = invoked a ++ invoked b := by
  simp [invoked]

theorem invoked_okEvents (cs : List (List String)) :
    invoked (okEvents cs) = cs := by
  induction cs with
  | nil => rfl
  | cons c cs ih =>
    rw [okEvents]
    simp only [invoked, List.filterMap_cons] at ih ⊢
    simp [ih]

theorem runOne_ok (env : Env) (c : List String) (h : env.exitCode c = 0) :
    runOne env c =
      ([Event.printLine ("> " ++ String.intercalate " " c), Event.runCmd c],
       none) := by
  simp [runOne, h]

theorem runOne_fail (env : Env) (c : List String) (h : env.exitCode c ≠ 0) :
    runOne env c =
      ([Event.printLine ("> " ++ String.intercalate " " c), Event.runCmd c,
        Event.printLine ("Error! Command " ++ c.headI ++
          " returned non-zero exit code " ++ toString (env.exitCode c))],
       some (env.exitCode c)) := by
  simp [runOne, h]

theorem runAll_cons_ok (env : Env) (c : List String) (cs : List (List String))
    (h : env.exitCode c = 0) :
    runAll env (c :: cs) =
      (Event.printLine ("> " ++ String.intercalate " " c) :: Event.runCmd c ::
        (runAll env cs).1, (runAll env cs).2) := by
  rw [runAll, runOne_ok env c h]
  rcases runAll env cs with ⟨ev2, r⟩
  rfl

theorem runAll_cons_fail (env : Env) (c : List String) (cs : List (List String))
    (h : env.exitCode c ≠ 0) :
    runAll env (c :: cs) =
      ([Event.printLine ("> " ++ String.intercalate " " c), Event.runCmd c,
        Event.printLine ("Error! Command " ++ c.headI ++
          " returned non-zero exit code " ++ toString (env.exitCode c))],
       some (env.exitCode c)) := by
  rw [runAll, runOne_fail env c h]

theorem runAll_ok (env : Env) (cs : List (List String))
    (h : ∀ c ∈ cs, env.exitCode c = 0) :
    runAll env cs = (okEvents cs, none) := by
  induction cs with
  | nil => rfl
  | cons c cs ih =>
    rw [runAll_cons_ok env c cs (h c (by simp)),
        ih fun x hx => h x (by simp [hx])]
    simp [okEvents]

theorem runAll_none (env : Env) (cs : List (List String))
    (h : (runAll env cs).2 = none) : ∀ c ∈ cs, env.exitCode c = 0 := by
  induction cs with
  | nil => simp
  | cons c cs ih =>
    by_cases hc : env.exitCode c = 0
    · rw [runAll_cons_ok env c cs hc] at h
      intro x hx
      rcases List.mem_cons.mp hx with hx | hx
      · rw [hx]; exact hc
      · exact ih h x hx
    · rw [runAll_cons_fail env c cs hc] at h
      simp at h

theorem runAll_fail (env : Env) (cs : List (List String)) (code : Int)
    (h : (runAll env cs).2 = some code) :
    ∃ pre cmd, (∀ c ∈ pre, env.exitCode c = 0) ∧
      env.exitCode cmd = code ∧ code ≠ 0 ∧
      invoked (runAll env cs).1 = pre ++ [cmd] := by
  induction cs with
  | nil => simp [runAll] at h
  | cons c cs ih =>
    by_cases hc : env.exitCode c = 0
    · rw [runAll_cons_ok env c cs hc] at h ⊢
      obtain ⟨pre, cmd, hpre, hcmd, hne, hinv⟩ := ih h
      refine ⟨c :: pre, cmd, ?_, hcmd, hne, ?_⟩
      · intro x hx
        rcases List.mem_cons.mp hx with hx | hx
        · rw [hx]; exact hc
        · exact hpre x hx
      · simp only [invoked, List.filterMap_cons] at hinv ⊢
        simp [hinv]
    · rw [runAll_cons_fail env c cs hc] at h ⊢
      have hce : env.exitCode c = code := by simpa using h
      refine ⟨[], c, by simp, hce, hce ▸ hc, ?_⟩
      simp [invoked]

/-! ## Branch equations for `script` -/

theorem script_fail_pre (env : Env) (ev : List Event) (code : Int)
    (h : runAll env preCommit = (ev, some code)) :
    script env = (Event.chdir (projectRoot env) :: ev, Outcome.exited code) := by
  simp [script, h]

theorem script_no_msg (env : Env) (h : truthy env.message = false)
    (hok : ∀ c ∈ preCommit, env.exitCode c = 0) :
    script env =
      (Event.chdir (projectRoot env) ::
        (okEvents preCommit ++ [Event.printLine "No commit message provided."]),
       Outcome.exited 0) := by
  simp [script, runAll_ok env preCommit hok, h]

theorem script_fail_git (env : Env) (msg : String) (ev2 : List Event)
    (code : Int) (hm : env.message = some msg) (hne : msg ≠ "")
    (hok : ∀ c ∈ preCommit, env.exitCode c = 0)
    (h : runAll env gitPre = (ev2, some code)) :
    script env =
      (Event.chdir (projectRoot env) :: (okEvents preCommit ++ ev2),
       Outcome.exited code) := by
  simp [script, runAll_ok env preCommit hok, truthy, hm, hne, h]

theorem script_eof (env : Env) (msg : String)
    (hm : env.message = some msg) (hne : msg ≠ "")
    (hok : ∀ c ∈ preCommit, env.exitCode c = 0)
    (hgit : ∀ c ∈ gitPre, env.exitCode c = 0)
    (hin : env.stdin = none) :
    script env =
      (Event.chdir (projectRoot env) ::
        (okEvents preCommit ++ okEvents gitPre ++
          [Event.printLine ("Message: " ++ finalMessage msg env.choice),
           Event.prompt "Commit & Push (y/n)? "]),
       Outcome.eofError) := by
  simp [script, runAll_ok env preCommit hok, runAll_ok env gitPre hgit,
        truthy, hm, hne, hin]

theorem script_decline (env : Env) (msg inp : String)
    (hm : env.message = some msg) (hne : msg ≠ "")
    (hok : ∀ c ∈ preCommit, env.exitCode c = 0)
    (hgit : ∀ c ∈ gitPre, env.exitCode c = 0)
    (hin : env.stdin = some inp) (hno : pyLower (pyStrip inp) ≠ "y") :
    script env =
      (Event.chdir (projectRoot env) ::
        (okEvents preCommit ++ okEvents gitPre ++
          [Event.printLine ("Message: " ++ finalMessage msg env.choice),
           Event.prompt "Commit & Push (y/n)? "]),
       Outcome.exited 0) := by
  simp [script, runAll_ok env preCommit hok, runAll_ok env gitPre hgit,
        truthy, hm, hne, hin, hno]

theorem script_confirm (env : Env) (msg inp : String)
    (hm : env.message = some msg) (hne : msg ≠ "")
    (hok : ∀ c ∈ preCommit, env.exitCode c = 0)
    (hgit : ∀ c ∈ gitPre, env.exitCode c = 0)
    (hin : env.stdin = some inp) (hyes : pyLower (pyStrip inp) = "y")
    (hfin : ∀ c ∈ gitFinish (finalMessage msg env.choice),
      env.exitCode c = 0) :
    script env =
      (Event.chdir (projectRoot env) ::
        (okEvents preCommit ++ okEvents gitPre ++
          [Event.printLine ("Message: " ++ finalMessage msg env.choice),
           Event.prompt "Commit & Push (y/n)? "] ++
          okEvents (gitFinish (finalMessage msg env.choice))),
       Outcome.exited 0) := by
  simp [script, runAll_ok env preCommit hok, runAll_ok env gitPre hgit,
        truthy, hm, hne, hin, hyes, runAll_ok env _ hfin]

theorem script_confirm_fail (env : Env) (msg inp : String) (ev4 : List Event)
    (code : Int) (hm : env.message = some msg) (hne : msg ≠ "")
    (hok : ∀ c ∈ preCommit, env.exitCode c = 0)
    (hgit : ∀ c ∈ gitPre, env.exitCode c = 0)
    (hin : env.stdin = some inp) (hyes : pyLower (pyStrip inp) = "y")
    (h : runAll env (gitFinish (finalMessage msg env.choice)) =
      (ev4, some code)) :
    script env =
      (Event.chdir (projectRoot env) ::
        (okEvents preCommit ++ okEvents gitPre ++
          [Event.printLine ("Message: " ++ finalMessage msg env.choice),
           Event.prompt "Commit & Push (y/n)? "] ++ ev4),
       Outcome.exited code) := by
  simp [script, runAll_ok env preCommit hok, runAll_ok env gitPre hgit,
        truthy, hm, hne, hin, hyes, h]

theorem invoked_nil : invoked [] = [] := rfl

theorem invoked_chdir_cons (d : FsPath) (l : List Event) :
    invoked (Event.chdir d :: l) = invoked l := by
  simp [invoked]

theorem invoked_printLine_cons (s : String) (l : List Event) :
    invoked (Event.printLine s :: l) = invoked l := by
  simp [invoked]

theorem invoked_prompt_cons (s : String) (l : List Event) :
    invoked (Event.prompt s :: l) = invoked l := by
  simp [invoked]

theorem invoked_runCmd_cons (a : List String) (l : List Event) :
    invoked (Event.runCmd a :: l) = a :: invoked l := by
  simp [invoked]

/-- Case analysis on a complete run of the script: every run falls into one
of the seven branches, with the event trace and outcome each branch
produces. -/
theorem script_cases (env : Env) (P : List Event × Outcome → Prop)
    (hfailPre : ∀ ev code, runAll env preCommit = (ev, some code) →
      P (Event.chdir (projectRoot env) :: ev, Outcome.exited code))
    (hnoMsg : (∀ c ∈ preCommit, env.exitCode c = 0) →
      truthy env.message = false →
      P (Event.chdir (projectRoot env) :: (okEvents preCommit ++
          [Event.printLine "No commit message provided."]), Outcome.exited 0))
    (hfailGit : ∀ msg ev2 code, env.message = some msg → msg ≠ "" →
      (∀ c ∈ preCommit, env.exitCode c = 0) →
      runAll env gitPre = (ev2, some code) →
      P (Event.chdir (projectRoot env) :: (okEvents preCommit ++ ev2),
         Outcome.exited code))
    (heof : ∀ msg, env.message = some msg → msg ≠ "" →
      (∀ c ∈ preCommit, env.exitCode c = 0) →
      (∀ c ∈ gitPre, env.exitCode c = 0) → env.stdin = none →
      P (Event.chdir (projectRoot env) ::
          (okEvents preCommit ++ okEvents gitPre ++
            [Event.printLine ("Message: " ++ finalMessage msg env.choice),
             Event.prompt "Commit & Push (y/n)? "]), Outcome.eofError))
    (hdecline : ∀ msg inp, env.message = some msg → msg ≠ "" →
      (∀ c ∈ preCommit, env.exitCode c = 0) →
      (∀ c ∈ gitPre, env.exitCode c = 0) → env.stdin = some inp →
      pyLower (pyStrip inp) ≠ "y" →
      P (Event.chdir (projectRoot env) ::
          (okEvents preCommit ++ okEvents gitPre ++
            [Event.printLine ("Message: " ++ finalMessage msg env.choice),
             Event.prompt "Commit & Push (y/n)? "]), Outcome.exited 0))
    (hconfFail : ∀ msg inp ev4 code, env.message = some msg → msg ≠ "" →
      (∀ c ∈ preCommit, env.exitCode c = 0) →
      (∀ c ∈ gitPre, env.exitCode c = 0) → env.stdin = some inp →
      pyLower (pyStrip inp) = "y" →
      runAll env (gitFinish (finalMessage msg env.choice)) =
        (ev4, some code) →
      P (Event.chdir (projectRoot env) ::
          (okEvents preCommit ++ okEvents gitPre ++
            [Event.printLine ("Message: " ++ finalMessage msg env.choice),
             Event.prompt "Commit & Push (y/n)? "] ++ ev4),
         Outcome.exited code))
    (hconf : ∀ msg inp, env.message = some msg → msg ≠ "" →
      (∀ c ∈ preCommit, env.exitCode c = 0) →
      (∀ c ∈ gitPre, env.exitCode c = 0) → env.stdin = some inp →
      pyLower (pyStrip inp) = "y" →
      (∀ c ∈ gitFinish (finalMessage msg env.choice), env.exitCode c = 0) →
      P (Event.chdir (projectRoot env) ::
          (okEvents preCommit ++ okEvents gitPre ++
            [Event.printLine ("Message: " ++ finalMessage msg env.choice),
             Event.prompt "Commit & Push (y/n)? "] ++
            okEvents (gitFinish (finalMessage msg env.choice))),
         Outcome.exited 0)) :
    P (script env) := by
  rcases hpre : runAll env preCommit with ⟨ev, rpre⟩
  cases rpre with
  | some code =>
    rw [script_fail_pre env ev code hpre]
    exact hfailPre ev code hpre
  | none =>
    have hok : ∀ c ∈ preCommit, env.exitCode c = 0 :=
      runAll_none env preCommit (by rw [hpre])
    rcases hm : env.message with _ | msg
    · rw [script_no_msg env (by simp [truthy, hm]) hok]
      exact hnoMsg hok (by simp [truthy, hm])
    · by_cases hne : msg = ""
      · rw [script_no_msg env (by simp [truthy, hm, hne]) hok]
        exact hnoMsg hok (by simp [truthy, hm, hne])
      · rcases hgit : runAll env gitPre with ⟨ev2, rgit⟩
        cases rgit with
        | some code2 =>
          rw [script_fail_git env msg ev2 code2 hm hne hok hgit]
          exact hfailGit msg ev2 code2 hm hne hok hgit
        | none =>
          have hgitok : ∀ c ∈ gitPre, env.exitCode c = 0 :=
            runAll_none env gitPre (by rw [hgit])
          rcases hin : env.stdin with _ | inp
          · rw [script_eof env msg hm hne hok hgitok hin]
            exact heof msg hm hne hok hgitok hin
          · by_cases hy : pyLower (pyStrip inp) = "y"
            · rcases hfin : runAll env (gitFinish (finalMessage msg env.choice))
                with ⟨ev4, rfin⟩
              cases rfin with
              | some code4 =>
                rw [script_confirm_fail env msg inp ev4 code4 hm hne hok hgitok
                      hin hy hfin]
                exact hconfFail msg inp ev4 code4 hm hne hok hgitok hin hy hfin
              | none =>
                have hfinok : ∀ c ∈ gitFinish (finalMessage msg env.choice),
                    env.exitCode c = 0 :=
                  runAll_none env _ (by rw [hfin])
                rw [script_confirm env msg inp hm hne hok hgitok hin hy hfinok]
                exact hconf msg inp hm hne hok hgitok hin hy hfinok
            · rw [script_decline env msg inp hm hne hok hgitok hin hy]
              exact hdecline msg inp hm hne hok hgitok hin hy

/-! ## The claims -/

/-- C1: for every one of the fixed pre-commit commands and every external
command run by the commit helper, if the command returns a non-zero exit
code then the script terminates with exactly that exit code, and the failing
command is the last command invoked — no subsequent command in the sequence
is executed. -/
theorem c1_fail_fast (env : Env) (cmd : List String)
    (hmem : cmd ∈ invoked (script env).1) (hcode : env.exitCode cmd ≠ 0) :
    (script env).2 = Outcome.exited (env.exitCode cmd) ∧
    (invoked (script env).1).getLast? = some cmd := by
  revert hmem
  refine script_cases env (fun r => cmd ∈ invoked r.1 →
    r.2 = Outcome.exited (env.exitCode cmd) ∧
    (invoked r.1).getLast? = some cmd) ?_ ?_ ?_ ?_ ?_ ?_ ?_
  · intro ev code hpre hmem
    obtain ⟨pre, c0, hpre0, hc0, hcne, hinv⟩ :=
      runAll_fail env preCommit code (by rw [hpre])
    rw [hpre] at hinv
    simp only [invoked_chdir_cons, hinv] at hmem ⊢
    rcases List.mem_append.mp hmem with hin | hin
    · exact absurd (hpre0 cmd hin) hcode
    · have hcc : cmd = c0 := by simpa using hin
      subst hcc
      exact ⟨by rw [hc0], List.getLast?_concat pre⟩
  · intro hok _ hmem
    simp only [invoked_chdir_cons, invoked_append, invoked_okEvents,
      invoked_printLine_cons, invoked_nil, List.append_nil] at hmem
    exact absurd (hok cmd hmem) hcode
  · intro msg ev2 code hm hne hok hgit hmem
    obtain ⟨pre, c0, hpre0, hc0, hcne, hinv⟩ :=
      runAll_fail env gitPre code (by rw [hgit])
    rw [hgit] at hinv
    simp only [invoked_chdir_cons, invoked_append, invoked_okEvents, hinv]
      at hmem ⊢
    rcases List.mem_append.mp hmem with hin | hin
    · exact absurd (hok cmd hin) hcode
    · rcases List.mem_append.mp hin with hin2 | hin2
      · exact absurd (hpre0 cmd hin2) hcode
      · have hcc : cmd = c0 := by simpa using hin2
        subst hcc
        refine ⟨by rw [hc0], ?_⟩
        rw [← List.append_assoc]
        exact List.getLast?_concat _
  · intro msg hm hne hok hgitok hin hmem
    simp only [invoked_chdir_cons, invoked_append, invoked_okEvents,
      invoked_printLine_cons, invoked_prompt_cons, invoked_nil,
      List.append_nil] at hmem
    rcases List.mem_append.mp hmem with hin2 | hin2
    · exact absurd (hok cmd hin2) hcode
    · exact absurd (hgitok cmd hin2) hcode
  · intro msg inp hm hne hok hgitok hin hno hmem
    simp only [invoked_chdir_cons, invoked_append, invoked_okEvents,
      invoked_printLine_cons, invoked_prompt_cons, invoked_nil,
      List.append_nil] at hmem
    rcases List.mem_append.mp hmem with hin2 | hin2
    · exact absurd (hok cmd hin2) hcode
    · exact absurd (hgitok cmd hin2) hcode
  · intro msg inp ev4 code hm hne hok hgitok hin hy hfin hmem
    obtain ⟨pre, c0, hpre0, hc0, hcne, hinv⟩ :=
      runAll_fail env (gitFinish (finalMessage msg env.choice)) code
        (by rw [hfin])
    rw [hfin] at hinv
    simp only [invoked_chdir_cons, invoked_append, invoked_okEvents,
      invoked_printLine_cons, invoked_prompt_cons, invoked_nil,
      List.append_nil, hinv] at hmem ⊢
    rcases List.mem_append.mp hmem with hin2 | hin2
    · rcases List.mem_append.mp hin2 with h3 | h3
      · exact absurd (hok cmd h3) hcode
      · exact absurd (hgitok cmd h3) hcode
    · rcases List.mem_append.mp hin2 with h3 | h3
      · exact absurd (hpre0 cmd h3) hcode
      · have hcc : cmd = c0 := by simpa using h3
        subst hcc
        refine ⟨by rw [hc0], ?_⟩
        rw [← List.append_assoc]
        exact List.getLast?_concat _
  · intro msg inp hm hne hok hgitok hin hy hfinok hmem
    simp only [invoked_chdir_cons, invoked_append, invoked_okEvents,
      invoked_printLine_cons, invoked_prompt_cons, invoked_nil,
      List.append_nil] at hmem
    rcases List.mem_append.mp hmem with hin2 | hin2
    · rcases List.mem_append.mp hin2 with h3 | h3
      · exact absurd (hok cmd h3) hcode
      · exact absurd (hgitok cmd h3) hcode
    · exact absurd (hfinok cmd hin2) hcode

/-- Environment for the C1 witness: `cargo clippy` returns 7, everything
else succeeds, no message argument. -/
def envC1 : Env :=
  { exitCode := fun c => if c = ["cargo", "clippy"] then 7 else 0,
    message := none, choice := 0, stdin := none,
    scriptFile := ["home", "oak", "scripts", "commit.py"] }

/-- Concrete instantiation of the C1 fail-fast theorem: with `cargo clippy`
failing with code 7, the run exits with code 7 and `cargo clippy` is the
last command invoked. -/
theorem c1_fail_fast_witness :
    ["cargo", "clippy"] ∈ invoked (script envC1).1 ∧
    envC1.exitCode ["cargo", "clippy"] ≠ 0 ∧
    ((script envC1).2 = Outcome.exited (envC1.exitCode ["cargo", "clippy"]) ∧
      (invoked (script envC1).1).getLast? = some ["cargo", "clippy"]) :=
  ⟨by decide, by decide,
    c1_fail_fast envC1 ["cargo", "clippy"] (by decide) (by decide)⟩

/-- C2: if no message argument is given and all five pre-commit commands
succeed, the run invokes exactly the five fixed pre-commit commands (in
particular no stage/status/commit/push command), prints the notice
"No commit message provided.", and exits 0. -/
theorem c2_no_message (env : Env) (hmsg : env.message = none)
    (hok : ∀ c ∈ preCommit, env.exitCode c = 0) :
    (script env).2 = Outcome.exited 0 ∧
    Event.printLine "No commit message provided." ∈ (script env).1 ∧
    invoked (script env).1 = preCommit := by
  rw [script_no_msg env (by simp [truthy, hmsg]) hok]
  refine ⟨rfl, by simp, ?_⟩
  simp only [invoked_chdir_cons, invoked_append, invoked_okEvents,
    invoked_printLine_cons, invoked_nil, List.append_nil]

/-- Environment for the C2 witness: no message, every command succeeds. -/
def envC2 : Env :=
  { exitCode := fun _ => 0, message := none, choice := 0, stdin := none,
    scriptFile := ["home", "oak", "scripts", "commit.py"] }

/-- Concrete instantiation of C2. -/
theorem c2_no_message_witness :
    envC2.message = none ∧ (∀ c ∈ preCommit, envC2.exitCode c = 0) ∧
    ((script envC2).2 = Outcome.exited 0 ∧
      Event.printLine "No commit message provided." ∈ (script envC2).1 ∧
      invoked (script envC2).1 = preCommit) :=
  ⟨rfl, by decide, c2_no_message envC2 rfl (by decide)⟩

/-- C3: if a message is given, the pre-commit and stage/status commands all
succeed, and the prompt input is anything whose stripped, lowercased form is
not "y", then the run invokes exactly the pre-commit and stage/status
commands (so commit and push are never invoked) and exits 0. -/
theorem c3_decline (env : Env) (msg inp : String)
    (hmsg : env.message = some msg) (hne : msg ≠ "")
    (hok : ∀ c ∈ preCommit, env.exitCode c = 0)
    (hgit : ∀ c ∈ gitPre, env.exitCode c = 0)
    (hin : env.stdin = some inp) (hno : pyLower (pyStrip inp) ≠ "y") :
    (script env).2 = Outcome.exited 0 ∧
    invoked (script env).1 = preCommit ++ gitPre := by
  rw [script_decline env msg inp hmsg hne hok hgit hin hno]
  refine ⟨rfl, ?_⟩
  simp only [invoked_chdir_cons, invoked_append, invoked_okEvents,
    invoked_printLine_cons, invoked_prompt_cons, invoked_nil,
    List.append_nil]

/-- Environment for the C3 witness: message given, prompt answered "n". -/
def envC3 : Env :=
  { exitCode := fun _ => 0, message := some "Fix bug", choice := 0,
    stdin := some "n",
    scriptFile := ["home", "oak", "scripts", "commit.py"] }

/-- Concrete instantiation of C3. -/
theorem c3_decline_witness :
    pyLower (pyStrip "n") ≠ "y" ∧
    ((script envC3).2 = Outcome.exited 0 ∧
      invoked (script envC3).1 = preCommit ++ gitPre) :=
  ⟨by decide, c3_decline envC3 "Fix bug" "n" rfl (by decide) (by decide)
    (by decide) rfl (by decide)⟩

/-- C5: if `cargo check` succeeds and the lint command `cargo clippy`
returns exit code 1, the run prints the invocation line "> cargo clippy"
and the diagnostic "Error! Command cargo returned non-zero exit code 1"
(naming the failed executable and the code), exits with code 1, and invokes
nothing beyond `cargo check` and `cargo clippy` — the format, test, doc and
commit steps never run. -/
theorem c5_lint_fail (env : Env)
    (hcheck : env.exitCode ["cargo", "check"] = 0)
    (hclippy : env.exitCode ["cargo", "clippy"] = 1) :
    (script env).2 = Outcome.exited 1 ∧
    Event.printLine "> cargo clippy" ∈ (script env).1 ∧
    Event.printLine "Error! Command cargo returned non-zero exit code 1" ∈
      (script env).1 ∧
    invoked (script env).1 = [["cargo", "check"], ["cargo", "clippy"]] := by
  have hne1 : env.exitCode ["cargo", "clippy"] ≠ 0 := by
    rw [hclippy]; decide
  have h1 : runAll env preCommit =
      ([Event.printLine "> cargo check", Event.runCmd ["cargo", "check"],
        Event.printLine "> cargo clippy", Event.runCmd ["cargo", "clippy"],
        Event.printLine "Error! Command cargo returned non-zero exit code 1"],
       some 1) := by
    rw [preCommit, runAll_cons_ok env _ _ hcheck,
        runAll_cons_fail env _ _ hne1, hclippy]
    rfl
  rw [script_fail_pre env _ 1 h1]
  refine ⟨rfl, by simp, by simp, by simp [invoked]⟩

/-- Environment for the C5 witness: `cargo clippy` returns 1, everything
else succeeds. -/
def envC5 : Env :=
  { exitCode := fun c => if c = ["cargo", "clippy"] then 1 else 0,
    message := some "Fix bug", choice := 0, stdin := some "y",
    scriptFile := ["home", "oak", "scripts", "commit.py"] }

/-- Concrete instantiation of C5. -/
theorem c5_lint_fail_witness :
    envC5.exitCode ["cargo", "check"] = 0 ∧
    envC5.exitCode ["cargo", "clippy"] = 1 ∧
    ((script envC5).2 = Outcome.exited 1 ∧
      Event.printLine "> cargo clippy" ∈ (script envC5).1 ∧
      Event.printLine "Error! Command cargo returned non-zero exit code 1" ∈
        (script envC5).1 ∧
      invoked (script envC5).1 = [["cargo", "check"], ["cargo", "clippy"]]) :=
  ⟨by decide, by decide, c5_lint_fail envC5 (by decide) (by decide)⟩

/-- C9: an empty-string message argument is treated identically to no
message at all — the run is event-for-event the same as with no message,
prints the "No commit message provided." notice, and invokes only the five
pre-commit commands — because the branch tests the message's truthiness
(`""` is falsy in Python), not its presence. -/
theorem c9_empty_message (env : Env) (hmsg : env.message = some "")
    (hok : ∀ c ∈ preCommit, env.exitCode c = 0) :
    script env = script { env with message := none } ∧
    Event.printLine "No commit message provided." ∈ (script env).1 ∧
    invoked (script env).1 = preCommit := by
  rw [script_no_msg env (by simp [truthy, hmsg]) hok,
      script_no_msg { env with message := none } (by simp [truthy]) hok]
  refine ⟨rfl, by simp, ?_⟩
  simp only [invoked_chdir_cons, invoked_append, invoked_okEvents,
    invoked_printLine_cons, invoked_nil, List.append_nil]

/-- Environment for the C9 witness: empty-string message. -/
def envC9 : Env :=
  { exitCode := fun _ => 0, message := some "", choice := 0,
    stdin := some "y",
    scriptFile := ["home", "oak", "scripts", "commit.py"] }

/-- Concrete instantiation of C9. -/
theorem c9_empty_message_witness :
    envC9.message = some "" ∧
    (script envC9 = script { envC9 with message := none } ∧
      Event.printLine "No commit message provided." ∈ (script envC9).1 ∧
      invoked (script envC9).1 = preCommit) :=
  ⟨rfl, c9_empty_message envC9 rfl (by decide)⟩

/-- C10: if standard input is at end-of-file when the confirmation prompt
runs, `input` raises `EOFError`, which nothing handles: the run ends in the
uncaught-exception outcome, not a normal exit — in particular it does not
exit with code 0 as a declined confirmation would. -/
theorem c10_eof (env : Env) (msg : String)
    (hmsg : env.message = some msg) (hne : msg ≠ "")
    (hok : ∀ c ∈ preCommit, env.exitCode c = 0)
    (hgit : ∀ c ∈ gitPre, env.exitCode c = 0)
    (hin : env.stdin = none) :
    (script env).2 = Outcome.eofError ∧
    (script env).2 ≠ Outcome.exited 0 := by
  rw [script_eof env msg hmsg hne hok hgit hin]
  exact ⟨rfl, by simp⟩

/-- Environment for the C10 witness: message given, stdin at end-of-file. -/
def envC10 : Env :=
  { exitCode := fun _ => 0, message := some "Fix bug", choice := 0,
    stdin := none,
    scriptFile := ["home", "oak", "scripts", "commit.py"] }

/-- Concrete instantiation of C10. -/
theorem c10_eof_witness :
    envC10.stdin = none ∧
    ((script envC10).2 = Outcome.eofError ∧
      (script envC10).2 ≠ Outcome.exited 0) :=
  ⟨rfl, c10_eof envC10 "Fix bug" rfl (by decide) (by decide) (by decide) rfl⟩

theorem okEvents_no_chdir (cs : List (List String)) (d : FsPath) :
    Event.chdir d ∉ okEvents cs := by
  induction cs with
  | nil => simp [okEvents]
  | cons c cs ih => simp [okEvents, ih]

theorem runAll_no_chdir (env : Env) (cs : List (List String)) (d : FsPath) :
    Event.chdir d ∉ (runAll env cs).1 := by
  induction cs with
  | nil => simp [runAll]
  | cons c cs ih =>
    by_cases h : env.exitCode c = 0
    · rw [runAll_cons_ok env c cs h]; simp [ih]
    · rw [runAll_cons_fail env c cs h]; simp

theorem runCmd_mem_okEvents (cs : List (List String)) (a : List String) :
    Event.runCmd a ∈ okEvents cs ↔ a ∈ cs := by
  induction cs with
  | nil => simp [okEvents]
  | cons c cs ih => simp [okEvents, ih]

/-- C4: whenever the commit helper reaches the point of displaying the final
commit message, for every supplied message and every outcome of the random
choice that message equals the supplied message, a single space, and exactly
one symbol from the fixed set `{♦, ♣, ♥, ♠}`, and a line showing it is
printed. -/
theorem c4_final_message (env : Env) (msg : String)
    (hmsg : env.message = some msg) (hne : msg ≠ "")
    (hok : ∀ c ∈ preCommit, env.exitCode c = 0)
    (hgit : ∀ c ∈ gitPre, env.exitCode c = 0) :
    ∃ s ∈ symbols, finalMessage msg env.choice = msg ++ " " ++ s ∧
      Event.printLine ("Message: " ++ (msg ++ " " ++ s)) ∈ (script env).1 := by
  have hs : symbols.getD env.choice.val "" ∈ symbols := by
    rcases env.choice with ⟨v, hv⟩
    interval_cases v <;> simp [symbols]
  refine ⟨symbols.getD env.choice.val "", hs, rfl, ?_⟩
  have hfm : Event.printLine
      ("Message: " ++ (msg ++ " " ++ symbols.getD env.choice.val "")) =
      Event.printLine ("Message: " ++ finalMessage msg env.choice) := rfl
  rw [hfm]
  refine script_cases env (fun r =>
    Event.printLine ("Message: " ++ finalMessage msg env.choice) ∈ r.1)
    ?_ ?_ ?_ ?_ ?_ ?_ ?_
  · intro ev code hpre
    rw [runAll_ok env preCommit hok] at hpre
    simp at hpre
  · intro _ hfalse
    rw [hmsg] at hfalse
    simp [truthy] at hfalse
    exact absurd hfalse hne
  · intro msg2 ev2 code hm2 hne2 hok2 hgit2
    rw [runAll_ok env gitPre hgit] at hgit2
    simp at hgit2
  · intro msg2 hm2 hne2 hok2 hgit2 hin2
    have heq : msg = msg2 := Option.some_inj.mp (hmsg.symm.trans hm2)
    subst heq
    simp
  · intro msg2 inp hm2 hne2 hok2 hgit2 hin2 hno2
    have heq : msg = msg2 := Option.some_inj.mp (hmsg.symm.trans hm2)
    subst heq
    simp
  · intro msg2 inp ev4 code hm2 hne2 hok2 hgit2 hin2 hy2 hfin2
    have heq : msg = msg2 := Option.some_inj.mp (hmsg.symm.trans hm2)
    subst heq
    simp
  · intro msg2 inp hm2 hne2 hok2 hgit2 hin2 hy2 hfin2
    have heq : msg = msg2 := Option.some_inj.mp (hmsg.symm.trans hm2)
    subst heq
    simp

/-- Environment for the C4 witness. -/
def envC4 : Env :=
  { exitCode := fun _ => 0, message := some "Fix bug", choice := 2,
    stdin := some "n",
    scriptFile := ["home", "oak", "scripts", "commit.py"] }

/-- Concrete instantiation of C4: with the third symbol chosen, the
displayed message is "Fix bug ♥". -/
theorem c4_final_message_witness :
    ∃ s ∈ symbols, finalMessage "Fix bug" envC4.choice = "Fix bug" ++ " " ++ s ∧
      Event.printLine ("Message: " ++ ("Fix bug" ++ " " ++ s)) ∈
        (script envC4).1 :=
  c4_final_message envC4 "Fix bug" rfl (by decide) (by decide) (by decide)

/-- C6: when a message is supplied, all five pre-commit commands succeed,
the user answers "y", and the remaining git commands succeed, the run
invokes stage-all, status, commit (with the supplied message, a space and
one of the four symbols appended) and push, in exactly that order after the
five pre-commit commands, and exits 0. -/
theorem c6_confirmed_flow (env : Env) (msg inp : String)
    (hmsg : env.message = some msg) (hne : msg ≠ "")
    (hall : ∀ c, env.exitCode c = 0)
    (hin : env.stdin = some inp) (hyes : pyLower (pyStrip inp) = "y") :
    invoked (script env).1 =
      preCommit ++ [["git", "add", "-A"], ["git", "status"],
        ["git", "commit", "-m", finalMessage msg env.choice],
        ["git", "push"]] ∧
    (∃ s ∈ symbols, finalMessage msg env.choice = msg ++ " " ++ s) ∧
    (script env).2 = Outcome.exited 0 := by
  rw [script_confirm env msg inp hmsg hne (fun c _ => hall c)
        (fun c _ => hall c) hin hyes (fun c _ => hall c)]
  refine ⟨?_, ⟨symbols.getD env.choice.val "", ?_, rfl⟩, rfl⟩
  · simp only [invoked_chdir_cons, invoked_append, invoked_okEvents,
      invoked_printLine_cons, invoked_prompt_cons, invoked_nil,
      List.append_nil, gitPre, gitFinish]
    simp
  · rcases env.choice with ⟨v, hv⟩
    interval_cases v <;> simp [symbols]

/-- Environment for the C6 witness. -/
def envC6 : Env :=
  { exitCode := fun _ => 0, message := some "Fix bug", choice := 3,
    stdin := some "y",
    scriptFile := ["home", "oak", "scripts", "commit.py"] }

/-- Concrete instantiation of C6. -/
theorem c6_confirmed_flow_witness :
    pyLower (pyStrip "y") = "y" ∧
    (invoked (script envC6).1 =
      preCommit ++ [["git", "add", "-A"], ["git", "status"],
        ["git", "commit", "-m", finalMessage "Fix bug" envC6.choice],
        ["git", "push"]] ∧
    (∃ s ∈ symbols, finalMessage "Fix bug" envC6.choice = "Fix bug" ++ " " ++ s) ∧
    (script envC6).2 = Outcome.exited 0) :=
  ⟨by decide, c6_confirmed_flow envC6 "Fix bug" "y" rfl (by decide)
    (fun _ => rfl) rfl (by decide)⟩

/-- C7: every run begins by changing the working directory, exactly once,
to the parent of the directory containing the script (the project root:
two `parent` steps up from the script file), before any external command
runs, and the directory is never changed again. -/
theorem c7_chdir_once (env : Env) :
    ∃ rest, (script env).1 = Event.chdir (projectRoot env) :: rest ∧
      (∀ d, Event.chdir d ∉ rest) ∧
      projectRoot env = env.scriptFile.dropLast.dropLast := by
  refine script_cases env (fun r =>
    ∃ rest, r.1 = Event.chdir (projectRoot env) :: rest ∧
      (∀ d, Event.chdir d ∉ rest) ∧
      projectRoot env = env.scriptFile.dropLast.dropLast) ?_ ?_ ?_ ?_ ?_ ?_ ?_
  · intro ev code hpre
    refine ⟨ev, rfl, fun d => ?_, rfl⟩
    have h := runAll_no_chdir env preCommit d
    rw [hpre] at h
    exact h
  · intro hok hfalse
    refine ⟨_, rfl, fun d => ?_, rfl⟩
    simp [List.mem_append, okEvents_no_chdir preCommit d]
  · intro msg ev2 code hm hne hok hgit
    refine ⟨_, rfl, fun d => ?_, rfl⟩
    have h2 : Event.chdir d ∉ ev2 := by
      have h := runAll_no_chdir env gitPre d
      rw [hgit] at h
      exact h
    simp [List.mem_append, okEvents_no_chdir preCommit d, h2]
  · intro msg hm hne hok hgit hin
    refine ⟨_, rfl, fun d => ?_, rfl⟩
    simp [List.mem_append, okEvents_no_chdir preCommit d,
      okEvents_no_chdir gitPre d]
  · intro msg inp hm hne hok hgit hin hno
    refine ⟨_, rfl, fun d => ?_, rfl⟩
    simp [List.mem_append, okEvents_no_chdir preCommit d,
      okEvents_no_chdir gitPre d]
  · intro msg inp ev4 code hm hne hok hgit hin hy hfin
    refine ⟨_, rfl, fun d => ?_, rfl⟩
    have h4 : Event.chdir d ∉ ev4 := by
      have h := runAll_no_chdir env (gitFinish (finalMessage msg env.choice)) d
      rw [hfin] at h
      exact h
    simp [List.mem_append, okEvents_no_chdir preCommit d,
      okEvents_no_chdir gitPre d, h4]
  · intro msg inp hm hne hok hgit hin hy hfin
    refine ⟨_, rfl, fun d => ?_, rfl⟩
    simp [List.mem_append, okEvents_no_chdir preCommit d,
      okEvents_no_chdir gitPre d,
      okEvents_no_chdir (gitFinish (finalMessage msg env.choice)) d]

/-- C8: the confirmation test strips leading and trailing whitespace and
lowercases the prompt input before comparing with "y": in a run where a
message is supplied, every command succeeds and the prompt reads some input,
the commit and push commands are invoked if and only if the stripped,
lowercased input equals exactly "y" (so " Y " is accepted, "yes" is not). -/
theorem c8_strip_lower (env : Env) (msg inp : String)
    (hmsg : env.message = some msg) (hne : msg ≠ "")
    (hall : ∀ c, env.exitCode c = 0)
    (hin : env.stdin = some inp) :
    ((∃ m, Event.runCmd ["git", "commit", "-m", m] ∈ (script env).1) ∧
      Event.runCmd ["git", "push"] ∈ (script env).1) ↔
    pyLower (pyStrip inp) = "y" := by
  by_cases hy : pyLower (pyStrip inp) = "y"
  · rw [script_confirm env msg inp hmsg hne (fun c _ => hall c)
          (fun c _ => hall c) hin hy (fun c _ => hall c)]
    simp only [hy, iff_true]
    constructor
    · exact ⟨finalMessage msg env.choice, by simp [okEvents, gitFinish]⟩
    · simp [okEvents, gitFinish]
  · rw [script_decline env msg inp hmsg hne (fun c _ => hall c)
          (fun c _ => hall c) hin hy]
    simp only [hy, iff_false]
    rintro ⟨⟨m, hmem⟩, hpush⟩
    rw [List.mem_cons] at hmem
    rcases hmem with hmem | hmem
    · exact Event.noConfusion hmem
    rw [List.mem_append] at hmem
    rcases hmem with hmem | hmem
    · rw [List.mem_append] at hmem
      rcases hmem with hmem | hmem
      · have := (runCmd_mem_okEvents preCommit _).mp hmem
        simp [preCommit] at this
      · have := (runCmd_mem_okEvents gitPre _).mp hmem
        simp [gitPre] at this
    · simp at hmem

/-- Environment for the C8 witness: prompt input " Y " (whitespace around an
uppercase Y). -/
def envC8 : Env :=
  { exitCode := fun _ => 0, message := some "Fix bug", choice := 1,
    stdin := some " Y ",
    scriptFile := ["home", "oak", "scripts", "commit.py"] }

/-- Concrete instantiation of C8: the input " Y " strips and lowercases to
"y", so commit and push are invoked. -/
theorem c8_strip_lower_witness :
    pyLower (pyStrip " Y ") = "y" ∧
    Event.runCmd ["git", "push"] ∈ (script envC8).1 :=
  ⟨by decide,
    ((c8_strip_lower envC8 "Fix bug" " Y " rfl (by decide)
      (fun _ => rfl) rfl).mpr (by decide)).2⟩
